import Mathlib

/-!
Verification model of the log ingestion pipeline and query/filter engine of
the Task repository (Node/Express backend).  Shallow embedding: the
JavaScript functions of `src/backendAtNode/utils/logParser.js`
(`isJsonLines`, `isSyslog`, `isNginxError`, `isClf`, the four format
parsers and `detectLogFormatAndParse`) and of
`src/backendAtNode/routes/logs.js` (the `flattenObject` helper, the upload
loop, the GET query/filter/pagination handler, the ingest handler and the
PATCH handler) are translated into executable Lean definitions.

Impure or engine-specific details that no statement below depends on are
abstracted explicitly:
* calendar arithmetic of the `moment` library: a parsed timestamp keeps the
  raw matched data (`Timestamp.raw` / `Timestamp.momentOf`) and the current
  instant is `Timestamp.now`;
* the wording of JavaScript built-in `TypeError` messages (fixed
  descriptive strings in the model; messages thrown explicitly by the
  source, e.g. "Unknown log format", are kept verbatim);
* JS floating point: a JSON number keeps its source lexeme.
-/

namespace LogsApp

/-- Model of a JavaScript/JSON value.  An object is its ordered field list
(keys unique, insertion ordered, as JS objects with string keys behave); a
number keeps its source lexeme. -/
inductive JsVal where
  | null
  | bool (b : Bool)
  | num (raw : String)
  | str (s : String)
  | arr (elems : List JsVal)
  | obj (fields : List (String × JsVal))

instance : Inhabited JsVal := ⟨JsVal.null⟩

/-- Assignment `o[k] = v` on a JS object: overwrite the value in place when
the key exists (keeping its original position), append otherwise. -/
def objInsert (fields : List (String × JsVal)) (k : String) (v : JsVal) :
    List (String × JsVal) :=
  if fields.any (fun p => p.1 == k) then
    fields.map (fun p => if p.1 == k then (k, v) else p)
  else
    fields ++ [(k, v)]

/-- `Object.assign(dst, src)`: copy the fields of `src` onto `dst` in
order. -/
def objAssignList (dst src : List (String × JsVal)) : List (String × JsVal) :=
  src.foldl (fun d p => objInsert d p.1 p.2) dst

/-- Property read `v[k]`, `none` = `undefined`.  (Exotic inherited
properties such as `length` are not modelled; the source only reads
data keys.) -/
def jsGet (v : JsVal) (k : String) : Option JsVal :=
  match v with
  | .obj fields => (fields.find? (fun p => p.1 == k)).map (fun p => p.2)
  | _ => none

/-- All mantissa digits zero, i.e. the numeric value of the lexeme is 0. -/
def numIsZero (raw : String) : Bool :=
  let cs := match raw.data with
    | '-' :: r => r
    | cs => cs
  let mant := cs.takeWhile (fun c => !(c == 'e' || c == 'E'))
  mant.all (fun c => c == '0' || c == '.')

/-- JS truthiness. -/
def jsTruthy : JsVal → Bool
  | .null => false
  | .bool b => b
  | .num raw => !numIsZero raw
  | .str s => !(s == "")
  | .arr _ => true
  | .obj _ => true

/-- JS `a || b` where `a` may be `undefined` (`none`). -/
def jsOrV (a : Option JsVal) (b : JsVal) : JsVal :=
  match a with
  | some v => if jsTruthy v then v else b
  | none => b

mutual

/-- JS `String(v)` coercion (number canonicalisation abstracted: the
lexeme is kept). -/
def jsString : JsVal → String
  | .null => "null"
  | .bool true => "true"
  | .bool false => "false"
  | .num raw => raw
  | .str s => s
  | .arr xs => jsStringElems xs
  | .obj _ => "[object Object]"

/-- `Array.prototype.toString`: elements joined by commas, `null` rendered
as the empty string. -/
def jsStringElems : List JsVal → String
  | [] => ""
  | [v] => jsStringElem v
  | v :: rest => jsStringElem v ++ "," ++ jsStringElems rest

/-- One array element inside a join. -/
def jsStringElem : JsVal → String
  | .null => ""
  | v => jsString v

end

/-- The spread `{...v}` as a field list: objects give their fields, arrays
and strings their indexed elements, primitives nothing. -/
def jsSpread : JsVal → List (String × JsVal)
  | .obj fields => fields
  | .arr xs => (List.range xs.length).zip xs |>.map (fun p => (toString p.1, p.2))
  | .str s => (List.range s.data.length).zip s.data
      |>.map (fun p => (toString p.1, JsVal.str (String.mk [p.2])))
  | _ => []

/-- Field list after `delete o[k]` for every `k` in `ks`. -/
def removeKeys (fields : List (String × JsVal)) (ks : List String) :
    List (String × JsVal) :=
  fields.filter (fun p => !(ks.any (fun k => k == p.1)))

/-- Lookup in an object-valued metadata field. -/
def metaLookup (m : JsVal) (k : String) : Option JsVal :=
  match m with
  | .obj fields => List.lookup k fields
  | _ => none

/-- Is the value a plain (non-array, non-null) object? -/
def isObjV : JsVal → Bool
  | .obj _ => true
  | _ => false

/-! ## JSON parsing (`JSON.parse`)

A recursive-descent model of the JSON grammar accepted by `JSON.parse`
(ECMA-404 with the JSON whitespace set).  Fuel is an upper bound on the
recursion depth; every recursive call first consumes at least one input
character, so `length + 1` fuel never runs out on any input. -/

/-- JSON whitespace (also the JS regex `\s` core set used later). -/
def jsonWs (c : Char) : Bool :=
  c == ' ' || c == '\t' || c == '\n' || c == '\r'

/-- Drop leading JSON whitespace. -/
def skipWs : List Char → List Char
  | [] => []
  | c :: cs => if jsonWs c then skipWs cs else c :: cs

/-- Numeric value of one hexadecimal digit (0-9, a-f, A-F). -/
def hexDigit (c : Char) : Option Nat :=
  let n := c.toNat
  if 48 ≤ n && n ≤ 57 then some (n - 48)
  else if 97 ≤ n && n ≤ 102 then some (n - 87)
  else if 65 ≤ n && n ≤ 70 then some (n - 55)
  else none

/-- Body of a JSON string after the opening quote; `acc` holds the decoded
characters in reverse.  (Surrogate-pair recombination of `\uXXXX` escapes
is abstracted: each escape yields one scalar value.) -/
def pStrBody (fuel : Nat) (cs : List Char) (acc : List Char) :
    Option (String × List Char) :=
  match fuel with
  | 0 => none
  | fuel + 1 =>
    match cs with
    | [] => none
    | '"' :: r => some (String.mk acc.reverse, r)
    | '\\' :: e :: r =>
      if e == '"' then pStrBody fuel r ('"' :: acc)
      else if e == '\\' then pStrBody fuel r ('\\' :: acc)
      else if e == '/' then pStrBody fuel r ('/' :: acc)
      else if e == 'b' then pStrBody fuel r ('\x08' :: acc)
      else if e == 'f' then pStrBody fuel r ('\x0c' :: acc)
      else if e == 'n' then pStrBody fuel r ('\n' :: acc)
      else if e == 'r' then pStrBody fuel r ('\r' :: acc)
      else if e == 't' then pStrBody fuel r ('\t' :: acc)
      else if e == 'u' then
        match r with
        | a :: b :: c :: d :: r2 =>
          match hexDigit a, hexDigit b, hexDigit c, hexDigit d with
          | some ha, some hb, some hc, some hd =>
            pStrBody fuel r2
              (Char.ofNat (ha * 4096 + hb * 256 + hc * 16 + hd) :: acc)
          | _, _, _, _ => none
        | _ => none
      else none
    | c :: r => if c.toNat < 32 then none else pStrBody fuel r (c :: acc)

/-- JSON number, returned as its source lexeme.  Grammar:
`-? (0 | [1-9][0-9]*) (. [0-9]+)? ([eE] [+-]? [0-9]+)?`. -/
def pNum (cs : List Char) : Option (JsVal × List Char) :=
  let (sign, cs1) : List Char × List Char :=
    match cs with
    | '-' :: r => (['-'], r)
    | _ => ([], cs)
  match cs1 with
  | c :: r =>
    if c == '0' then pNumFrac (sign ++ [c]) r
    else if c.isDigit then
      let ds := r.takeWhile Char.isDigit
      pNumFrac (sign ++ c :: ds) (r.dropWhile Char.isDigit)
    else none
  | [] => none
where
  pNumFrac (lex : List Char) (cs : List Char) : Option (JsVal × List Char) :=
    match cs with
    | '.' :: r =>
      let ds := r.takeWhile Char.isDigit
      if ds.isEmpty then none
      else pNumExp (lex ++ '.' :: ds) (r.dropWhile Char.isDigit)
    | _ => pNumExp lex cs
  pNumExp (lex : List Char) (cs : List Char) : Option (JsVal × List Char) :=
    match cs with
    | e :: r =>
      if e == 'e' || e == 'E' then
        let (sg, r1) : List Char × List Char :=
          match r with
          | '+' :: r2 => (['+'], r2)
          | '-' :: r2 => (['-'], r2)
          | _ => ([], r)
        let ds := r1.takeWhile Char.isDigit
        if ds.isEmpty then none
        else some (.num (String.mk (lex ++ e :: sg ++ ds)), r1.dropWhile Char.isDigit)
      else some (.num (String.mk lex), cs)
    | [] => some (.num (String.mk lex), [])

mutual

/-- One JSON value; `cs` starts at a non-whitespace character. -/
def pValue (fuel : Nat) (cs : List Char) : Option (JsVal × List Char) :=
  match fuel with
  | 0 => none
  | fuel + 1 =>
    match cs with
    | [] => none
    | c :: rest =>
      if c == '{' then
        match skipWs rest with
        | '}' :: r => some (.obj [], r)
        | r => pMembers fuel r []
      else if c == '[' then
        match skipWs rest with
        | ']' :: r => some (.arr [], r)
        | r => pElements fuel r []
      else if c == '"' then
        (pStrBody fuel rest []).map (fun p => (.str p.1, p.2))
      else if c == 't' then
        match rest with
        | 'r' :: 'u' :: 'e' :: r => some (.bool true, r)
        | _ => none
      else if c == 'f' then
        match rest with
        | 'a' :: 'l' :: 's' :: 'e' :: r => some (.bool false, r)
        | _ => none
      else if c == 'n' then
        match rest with
        | 'u' :: 'l' :: 'l' :: r => some (.null, r)
        | _ => none
      else pNum cs

/-- Object members from the first key on; duplicate keys behave as in
`JSON.parse` (last value wins, first position kept) via `objInsert`. -/
def pMembers (fuel : Nat) (cs : List Char) (acc : List (String × JsVal)) :
    Option (JsVal × List Char) :=
  match fuel with
  | 0 => none
  | fuel + 1 =>
    match cs with
    | '"' :: rest =>
      match pStrBody fuel rest [] with
      | none => none
      | some (k, r1) =>
        match skipWs r1 with
        | ':' :: r2 =>
          match pValue fuel (skipWs r2) with
          | none => none
          | some (v, r3) =>
            match skipWs r3 with
            | ',' :: r4 => pMembers fuel (skipWs r4) (objInsert acc k v)
            | '}' :: r4 => some (.obj (objInsert acc k v), r4)
            | _ => none
        | _ => none
    | _ => none

/-- Array elements from the first element on. -/
def pElements (fuel : Nat) (cs : List Char) (acc : List JsVal) :
    Option (JsVal × List Char) :=
  match fuel with
  | 0 => none
  | fuel + 1 =>
    match pValue fuel cs with
    | none => none
    | some (v, r1) =>
      match skipWs r1 with
      | ',' :: r2 => pElements fuel (skipWs r2) (acc ++ [v])
      | ']' :: r2 => some (.arr (acc ++ [v]), r2)
      | _ => none

end

/-- `JSON.parse(s)`: `none` models a thrown `SyntaxError`. -/
def jsonParse (s : String) : Option JsVal :=
  let cs := s.data
  match pValue (2 * cs.length + 2) (skipWs cs) with
  | some (v, rest) => if (skipWs rest).isEmpty then some v else none
  | none => none

/-! ## Format grammars

Direct models of the three regular expressions of `logParser.js`.  Each
regex is deterministic under greedy matching (adjacent greedy classes are
disjoint), with one exception in the syslog pattern, noted there, which is
modelled explicitly.  The predicate `isX` and the capture form used by
`parseX` are textually separate in the source but denote the same pattern,
so each is modelled by one matcher. -/

/-- The JS regex `\s` class (ASCII part; the Unicode spaces JS also
accepts do not occur in log lines). -/
def regexWs (c : Char) : Bool :=
  c == ' ' || c == '\t' || c == '\n' || c == '\r' || c == '\x0b' || c == '\x0c'

/-- The JS regex `\w` class. -/
def regexWord (c : Char) : Bool :=
  c.isAlphanum || c == '_'

/-- Greedy span of a character class: longest matching run and the rest. -/
def charSpan (p : Char → Bool) (cs : List Char) : List Char × List Char :=
  (cs.takeWhile p, cs.dropWhile p)

/-- JS `String.prototype.trim` (ASCII whitespace; the Unicode spaces JS
also strips do not occur in log lines). -/
def jsTrim (s : String) : String :=
  String.mk (((s.data.dropWhile regexWs).reverse.dropWhile regexWs).reverse)

/-- JS `String.prototype.toLowerCase` (ASCII case folding). -/
def jsToLower (s : String) : String :=
  String.mk (s.data.map Char.toLower)

/-- JS `String.prototype.split` with a one-character separator: empty
pieces are kept, `"".split(sep)` gives `[""]`. -/
def splitChar (sep : Char) (s : String) : List String :=
  go s.data []
where
  go : List Char → List Char → List String
    | [], cur => [String.mk cur.reverse]
    | c :: r, cur =>
      if c == sep then String.mk cur.reverse :: go r []
      else go r (c :: cur)

/-- Captures of
`^([A-Z][a-z]{2}\s+\d{1,2}\s+\d{2}:\d{2}:\d{2})\s+(\S+)\s+([^:\[]+)(?:\[(\d+)\])?:\s+(.*)$`
(the syslog pattern): timestamp, host, service, optional pid, message.

Greedy determinism notes: `\d{1,2}` is followed by `\s+`, so it matches
exactly the digit run when that run has length 1 or 2 and fails otherwise;
`[^:\[]+` after `\s+` can itself match whitespace, so when the character
after the whitespace run is directly `:` or `[` the engine backtracks one
whitespace character out of `\s+` into the service capture (the only
backtrack that can succeed). -/
def syslogMatch (line : String) :
    Option (String × String × String × Option String × String) :=
  match line.data with
  | c0 :: c1 :: c2 :: cs =>
    if c0.isUpper && c1.isLower && c2.isLower then
      let (ws1, r1) := charSpan regexWs cs
      if ws1.isEmpty then none else
      let (day, r2) := charSpan Char.isDigit r1
      if day.length == 0 || 2 < day.length then none else
      let (ws2, r3) := charSpan regexWs r2
      if ws2.isEmpty then none else
      match r3 with
      | h1 :: h2 :: ':' :: m1 :: m2 :: ':' :: s1 :: s2 :: r4 =>
        if h1.isDigit && h2.isDigit && m1.isDigit && m2.isDigit
            && s1.isDigit && s2.isDigit then
          let tstamp := String.mk ([c0, c1, c2] ++ ws1 ++ day ++ ws2
            ++ [h1, h2, ':', m1, m2, ':', s1, s2])
          let (ws3, r5) := charSpan regexWs r4
          if ws3.isEmpty then none else
          let (host, r6) := charSpan (fun c => !regexWs c) r5
          if host.isEmpty then none else
          let (ws4, r7) := charSpan regexWs r6
          if ws4.isEmpty then none else
          let (svc0, r8) := charSpan (fun c => !(c == ':' || c == '[')) r7
          let backtrack := svc0.isEmpty
          if backtrack && ws4.length < 2 then none else
          let svc := if backtrack then [ws4.getLastD ' '] else svc0
          let finish (pid : Option String) (r : List Char) :
              Option (String × String × String × Option String × String) :=
            let (ws5, r10) := charSpan regexWs r
            if ws5.isEmpty then none
            else some (tstamp, String.mk host, String.mk svc, pid, String.mk r10)
          match r8 with
          | '[' :: r9 =>
            let (pid, r10) := charSpan Char.isDigit r9
            if pid.isEmpty then none else
            match r10 with
            | ']' :: ':' :: r11 => finish (some (String.mk pid)) r11
            | _ => none
          | ':' :: r9 => finish none r9
          | _ => none
        else none
      | _ => none
    else none
  | _ => none

/-- Captures of
`^(\d{4}\/\d{2}\/\d{2} \d{2}:\d{2}:\d{2}) \[([^\]]+)\] (\d+)#(\d+): (?:\*(\d+) )?(.*)$`
(the nginx error pattern): timestamp, severity, pid, tid, optional
connection id, message.  The optional `\*(\d+) ` group is tried first;
when it fails the trailing `(.*)$` absorbs the rest unchanged. -/
def nginxMatch (line : String) :
    Option (String × String × String × String × Option String × String) :=
  match line.data with
  | y1 :: y2 :: y3 :: y4 :: '/' :: mo1 :: mo2 :: '/' :: d1 :: d2 :: ' '
      :: h1 :: h2 :: ':' :: mi1 :: mi2 :: ':' :: s1 :: s2 :: ' ' :: '[' :: cs =>
    if [y1, y2, y3, y4, mo1, mo2, d1, d2, h1, h2, mi1, mi2, s1, s2].all Char.isDigit then
      let tstamp := String.mk [y1, y2, y3, y4, '/', mo1, mo2, '/', d1, d2, ' ',
        h1, h2, ':', mi1, mi2, ':', s1, s2]
      let (sev, r1) := charSpan (fun c => !(c == ']')) cs
      if sev.isEmpty then none else
      match r1 with
      | ']' :: ' ' :: r2 =>
        let (pid, r3) := charSpan Char.isDigit r2
        if pid.isEmpty then none else
        match r3 with
        | '#' :: r4 =>
          let (tid, r5) := charSpan Char.isDigit r4
          if tid.isEmpty then none else
          match r5 with
          | ':' :: ' ' :: r6 =>
            let (conn, msg) : Option String × List Char :=
              match r6 with
              | '*' :: r7 =>
                let (cid, r8) := charSpan Char.isDigit r7
                if cid.isEmpty then (none, r6)
                else
                  match r8 with
                  | ' ' :: r9 => (some (String.mk cid), r9)
                  | _ => (none, r6)
              | _ => (none, r6)
            some (tstamp, String.mk sev, String.mk pid, String.mk tid, conn,
              String.mk msg)
          | _ => none
        | _ => none
      | _ => none
    else none
  | _ => none

/-- Captures of
`^(\S+) (\S+) (\S+) \[([\w:\/]+\s[+\-]\d{4})\] "([^"]*)" (\d{3}) (\d+)$`
(the CLF pattern): ip, ident, user, timestamp, request, status digits,
size digits. -/
def clfMatch (line : String) :
    Option (String × String × String × String × String × String × String) :=
  let cs := line.data
  let (ip, r1) := charSpan (fun c => !regexWs c) cs
  if ip.isEmpty then none else
  match r1 with
  | ' ' :: r2 =>
    let (ident, r3) := charSpan (fun c => !regexWs c) r2
    if ident.isEmpty then none else
    match r3 with
    | ' ' :: r4 =>
      let (user, r5) := charSpan (fun c => !regexWs c) r4
      if user.isEmpty then none else
      match r5 with
      | ' ' :: '[' :: r6 =>
        let (tsMain, r7) := charSpan (fun c => regexWord c || c == ':' || c == '/') r6
        if tsMain.isEmpty then none else
        match r7 with
        | w :: sg :: z1 :: z2 :: z3 :: z4 :: ']' :: ' ' :: '"' :: r8 =>
          if regexWs w && (sg == '+' || sg == '-')
              && [z1, z2, z3, z4].all Char.isDigit then
            let tstamp := String.mk (tsMain ++ [w, sg, z1, z2, z3, z4])
            let (req, r9) := charSpan (fun c => !(c == '"')) r8
            match r9 with
            | '"' :: ' ' :: r10 =>
              let (st, r11) := charSpan Char.isDigit r10
              if !(st.length == 3) then none else
              match r11 with
              | ' ' :: r12 =>
                let (sz, r13) := charSpan Char.isDigit r12
                if sz.isEmpty || !r13.isEmpty then none
                else some (String.mk ip, String.mk ident, String.mk user, tstamp,
                  String.mk req, String.mk st, String.mk sz)
              | _ => none
            | _ => none
          else none
        | _ => none
      | _ => none
    | _ => none
  | _ => none

/-- `isJsonLines`: the line (trimmed) parses as JSON. -/
def isJsonLines (line : String) : Bool :=
  (jsonParse (jsTrim line)).isSome

/-- `isSyslog`: the syslog pattern matches. -/
def isSyslog (line : String) : Bool :=
  (syslogMatch line).isSome

/-- `isNginxError`: the nginx error pattern matches. -/
def isNginxError (line : String) : Bool :=
  (nginxMatch line).isSome

/-- `isClf`: the CLF pattern matches. -/
def isClf (line : String) : Bool :=
  (clfMatch line).isSome

/-! ## Format parsers

Each parser is `line → Except String Draft`; `Except.error` models a
thrown exception, whose message string is carried along. -/

/-- A log timestamp.  Calendar semantics of the `moment` library are
abstracted: only which data the timestamp was built from is kept. -/
inductive Timestamp where
  | now
  | momentOf (v : JsVal)
  | raw (s : String)

/-- Parser output before the upload route adds tenant fields ("draft
entry").  `service` and `message` are arbitrary JS values because the
JSON-lines parser passes them through untouched. -/
structure Draft where
  timestamp : Timestamp
  level : String
  service : JsVal
  message : JsVal
  meta : JsVal
  format : String

/-- JS `a || b` with both operands possibly `undefined`. -/
def jsOrU (a b : Option JsVal) : Option JsVal :=
  match a with
  | some v => if jsTruthy v then some v else b
  | none => b

/-- The keys `parseJsonLines` deletes from the meta copy. -/
def jsonConsumedKeys : List String :=
  ["timestamp", "time", "@timestamp", "level", "severity", "service",
   "application", "app", "message", "msg"]

/-- `parseJsonLines`: parse the line as JSON, pick timestamp / level /
service / message by the documented precedence with JS `||` (falsy)
semantics, put the remaining keys into `meta` (or `null` when none
remain).  A non-string truthy `level`/`severity` makes the
`.toLowerCase()` call throw, and a JSON `null` document makes the
`data.timestamp` access throw. -/
def parseJsonLines (line : String) : Except String Draft :=
  match jsonParse line with
  | none => .error "Unexpected token in JSON"
  | some .null => .error "Cannot read properties of null"
  | some data =>
    let tsField := jsOrU (jsGet data "timestamp")
      (jsOrU (jsGet data "time") (jsGet data "@timestamp"))
    let levelVal := jsOrV (jsGet data "level")
      (jsOrV (jsGet data "severity") (.str "info"))
    match levelVal with
    | .str levelStr =>
      let service := jsOrV (jsGet data "service")
        (jsOrV (jsGet data "application") (jsOrV (jsGet data "app") (.str "unknown")))
      let message := jsOrV (jsGet data "message") (jsOrV (jsGet data "msg") (.str ""))
      let metaFields := removeKeys (jsSpread data) jsonConsumedKeys
      .ok { timestamp := match tsField with
              | none => .now
              | some v => .momentOf v,
            level := jsToLower levelStr,
            service := service,
            message := message,
            meta := if 0 < metaFields.length then .obj metaFields else .null,
            format := "json_lines" }
    | _ => .error "toLowerCase is not a function"

/-- Alternatives of the syslog level regex
`^(debug|info|notice|warning|warn|error|err|crit|alert|emerg):/i`, in
source order. -/
def syslogLevels : List String :=
  ["debug", "info", "notice", "warning", "warn", "error", "err", "crit",
   "alert", "emerg"]

/-- Level extracted from a syslog message body: the first alternative that
is a case-insensitive prefix followed by a colon, lower-cased; `info`
otherwise. -/
def syslogLevelOf (message : String) : String :=
  match syslogLevels.find? (fun tok =>
      jsToLower (String.mk (message.data.take tok.length)) == tok
        && (message.data.drop tok.length).head? == some ':') with
  | some tok => jsToLower (String.mk (message.data.take tok.length))
  | none => "info"

/-- `parseSyslog`. The timestamp keeps the matched string (the source
appends the current year and parses with moment, abstracted here);
`service.split('[')[0].trim()` cannot actually contain `[`, so the split
is the identity. -/
def parseSyslog (line : String) : Except String Draft :=
  match syslogMatch line with
  | none => .error "Invalid syslog format"
  | some (timestampStr, host, service, pid, message) =>
    .ok { timestamp := .raw timestampStr,
          level := syslogLevelOf message,
          service := .str (jsTrim (String.mk (service.data.takeWhile (fun c => !(c == '['))))),
          message := .str message,
          meta := .obj [("host", .str host),
            ("pid", match pid with
              | some p => .str p
              | none => .null)],
          format := "syslog" }

/-- The search `/client: (\d+\.\d+\.\d+\.\d+)/` tried at one position. -/
def ipv4At (cs : List Char) : Option String :=
  match cs with
  | 'c' :: 'l' :: 'i' :: 'e' :: 'n' :: 't' :: ':' :: ' ' :: r =>
    let (d1, r1) := charSpan Char.isDigit r
    if d1.isEmpty then none else
    match r1 with
    | '.' :: r2 =>
      let (d2, r3) := charSpan Char.isDigit r2
      if d2.isEmpty then none else
      match r3 with
      | '.' :: r4 =>
        let (d3, r5) := charSpan Char.isDigit r4
        if d3.isEmpty then none else
        match r5 with
        | '.' :: r6 =>
          let (d4, _) := charSpan Char.isDigit r6
          if d4.isEmpty then none
          else some (String.mk (d1 ++ '.' :: d2 ++ '.' :: d3 ++ '.' :: d4))
        | _ => none
      | _ => none
    | _ => none
  | _ => none

/-- Unanchored first match of the client-ip pattern, scanning left to
right. -/
def findClientIp : List Char → Option String
  | [] => none
  | c :: cs =>
    match ipv4At (c :: cs) with
    | some ip => some ip
    | none => findClientIp cs

/-- `parseNginxError`. -/
def parseNginxError (line : String) : Except String Draft :=
  match nginxMatch line with
  | none => .error "Invalid nginx error format"
  | some (timestampStr, level, pid, tid, connectionId, message) =>
    let baseMeta := [("pid", JsVal.str pid), ("thread_id", JsVal.str tid),
      ("connection_id", match connectionId with
        | some c => JsVal.str c
        | none => JsVal.null)]
    .ok { timestamp := .raw timestampStr,
          level := jsToLower level,
          service := .str "nginx",
          message := .str message,
          meta := .obj (match findClientIp message.data with
            | some ip => baseMeta ++ [("client_ip", JsVal.str ip)]
            | none => baseMeta),
          format := "nginx_error" }

/-- `parseInt` on a digit string. -/
def parseDigits (s : String) : Nat :=
  s.data.foldl (fun n c => n * 10 + (c.toNat - '0'.toNat)) 0

/-- `timestampStr.replace(':', ' ')`: first occurrence only. -/
def replaceFirstColon (s : String) : String :=
  String.mk (go s.data)
where
  go : List Char → List Char
    | [] => []
    | ':' :: r => ' ' :: r
    | c :: r => c :: go r

/-- `parseClf`: the level is derived from the numeric status
(`>= 500` error, `>= 400` warn, otherwise info), the service is the
literal `http` and the message is `"<method> <path> <status>"`. -/
def parseClf (line : String) : Except String Draft :=
  match clfMatch line with
  | none => .error "Invalid CLF format"
  | some (ip, ident, user, timestampStr, request, status, size) =>
    let statusCode := parseDigits status
    let requestParts := splitChar ' ' request
    let method := requestParts.getD 0 ""
    let path := requestParts.getD 1 ""
    let protocol := requestParts.getD 2 ""
    .ok { timestamp := .raw (replaceFirstColon timestampStr),
          level := if 500 ≤ statusCode then "error"
            else if 400 ≤ statusCode then "warn"
            else "info",
          service := .str "http",
          message := .str (method ++ " " ++ path ++ " " ++ toString statusCode),
          meta := .obj [("ip", .str ip),
            ("ident", if ident == "-" then JsVal.null else .str ident),
            ("user", if user == "-" then JsVal.null else .str user),
            ("status", .num (toString statusCode)),
            ("size", .num (toString (parseDigits size))),
            ("method", .str method),
            ("path", .str path),
            ("protocol", .str protocol)],
          format := "clf" }

/-- The classification dispatch inside the `try` of
`detectLogFormatAndParse`: the four predicates in source order, first
match wins, otherwise the explicit `throw new Error("Unknown log
format")`. -/
def classifyParse (line : String) : Except String Draft :=
  if isJsonLines line then parseJsonLines line
  else if isSyslog line then parseSyslog line
  else if isNginxError line then parseNginxError line
  else if isClf line then parseClf line
  else .error "Unknown log format"

/-- The synthetic entry built in the `catch` of
`detectLogFormatAndParse`. -/
def fallbackEntry (reason : String) (line : String) : Draft :=
  { timestamp := .now,
    level := "error",
    service := .str "parser",
    message := .str ("Failed to parse log line: " ++ reason),
    meta := .obj [("original_line", .str line)],
    format := "json_lines" }

/-- The `try`/`catch` value: the parsed draft, or the fallback built from
the caught message. -/
def resolveParse (r : Except String Draft) (line : String) : Draft :=
  match r with
  | .ok d => d
  | .error m => fallbackEntry m line

/-- `detectLogFormatAndParse`: total — every exception from
classification or parsing is caught and turned into the fallback
entry. -/
def detectLogFormatAndParse (line : String) : Draft :=
  resolveParse (classifyParse line) line

/-! ## Metadata flattening and the upload pipeline
(`router.post('/upload')` in `routes/logs.js`) -/

/-- Worker for `flattenObject`: `acc` is the `flattened` object built so
far, the second argument the entries still to visit.  A plain-object value
(`value && typeof value === 'object' && !Array.isArray(value)`) is
flattened recursively and merged with `Object.assign`, discarding the
parent key; anything else is assigned under its own key. -/
def flattenAux : List (String × JsVal) → List (String × JsVal) → List (String × JsVal)
  | acc, [] => acc
  | acc, (_, JsVal.obj nested) :: rest =>
    flattenAux (objAssignList acc (flattenAux [] nested)) rest
  | acc, (k, v) :: rest => flattenAux (objInsert acc k v) rest

/-- `flattenObject` from the upload route. -/
def flattenObject (fields : List (String × JsVal)) : List (String × JsVal) :=
  flattenAux [] fields

/-- A stored log document as the upload route builds it. -/
structure UploadEntry where
  timestamp : Timestamp
  level : String
  service : JsVal
  message : JsVal
  format : String
  organizationID : Nat
  meta : List (String × JsVal)
  original_level : String

/-- The `try` block of the per-line upload loop.  Every call in it is
total (`detectLogFormatAndParse` catches internally, `flattenObject` and
`new Date(...)` cannot throw), so this always returns `.ok`; the
`Except` shape mirrors the `try`. -/
def uploadLineResult (orgId : Nat) (line : String) : Except String UploadEntry :=
  let parsedLog := detectLogFormatAndParse line
  let flattenedMeta := match parsedLog.meta with
    | .obj fields => flattenObject fields
    | _ => []
  .ok { timestamp := parsedLog.timestamp,
        level := parsedLog.level,
        service := parsedLog.service,
        message := parsedLog.message,
        format := parsedLog.format,
        organizationID := orgId,
        meta := flattenedMeta,
        original_level := parsedLog.level }

/-- State of the upload loop. -/
structure UploadState where
  parsedLogs : List UploadEntry
  lineNumber : Nat
  errorCount : Nat

/-- One iteration of `for await (const line of rl)`: count the line, skip
it when blank, otherwise parse the trimmed line; the `catch` branch
builds the `log-parser` synthetic entry and bumps `errorCount`. -/
def uploadStep (orgId : Nat) (fileName : String) (st : UploadState)
    (line : String) : UploadState :=
  let n := st.lineNumber + 1
  if jsTrim line == "" then
    { st with lineNumber := n }
  else
    match uploadLineResult orgId (jsTrim line) with
    | .ok e =>
      { parsedLogs := st.parsedLogs ++ [e], lineNumber := n,
        errorCount := st.errorCount }
    | .error msg =>
      { parsedLogs := st.parsedLogs ++
          [{ timestamp := .now,
             level := "error",
             service := .str "log-parser",
             message := .str ("Failed to parse line " ++ toString n ++ ": " ++ msg),
             format := "json_lines",
             organizationID := orgId,
             meta := [("original_line", JsVal.str line),
               ("line_number", JsVal.num (toString n)),
               ("file_name", JsVal.str fileName)],
             original_level := "error" }],
        lineNumber := n,
        errorCount := st.errorCount + 1 }

/-- The statistics object of the upload response. -/
structure UploadStats where
  total_lines : Nat
  parsed_logs : Nat
  error_count : Nat

/-- The whole per-line phase of `router.post('/upload')`: entries to be
batch-inserted, and the response statistics. -/
def uploadPipeline (lines : List String) (fileName : String) (orgId : Nat) :
    List UploadEntry × UploadStats :=
  let fin := lines.foldl (uploadStep orgId fileName) ⟨[], 0, 0⟩
  (fin.parsedLogs,
   { total_lines := fin.lineNumber,
     parsed_logs := fin.parsedLogs.length,
     error_count := fin.errorCount })

/-! ## Manual create (`router.post('/ingest')`) and partial update
(`router.patch('/:log_id')`) -/

/-- Validated body of a manual-create request (`meta` optional,
defaulting to `{}`). -/
structure IngestBody where
  level : String
  service : String
  message : String
  format : String
  meta : Option JsVal

/-- Document created by `router.post('/ingest')`. -/
structure IngestEntry where
  timestamp : Timestamp
  level : String
  service : String
  message : String
  format : String
  organizationID : Nat
  meta : JsVal
  original_level : String

/-- `router.post('/ingest')`: level lower-cased into `level`, the
submitted value kept in `original_level`, no flattening of `meta`. -/
def ingestLog (body : IngestBody) (orgId : Nat) : IngestEntry :=
  { timestamp := .now,
    level := jsToLower body.level,
    service := body.service,
    message := body.message,
    format := body.format,
    organizationID := orgId,
    meta := body.meta.getD (.obj []),
    original_level := body.level }

/-- A stored log document as the query and update routes see it
(timestamps as comparable instants). -/
structure StoredLog where
  timestamp : Int
  level : String
  service : String
  message : String
  format : String
  organizationID : Nat
  meta : JsVal
  original_level : String

/-- Schema fields a PATCH body may carry (each optional). -/
structure PatchBody where
  timestamp : Option Int
  level : Option String
  service : Option String
  message : Option String
  format : Option String
  original_level : Option String
  meta : Option JsVal
  organizationID : Option Nat

/-- `router.patch('/:log_id')` applies `Object.assign(log, req.body)`:
every schema path present in the body is copied onto the document — there
is no allow-list. -/
def applyPatch (log : StoredLog) (body : PatchBody) : StoredLog :=
  { timestamp := body.timestamp.getD log.timestamp,
    level := body.level.getD log.level,
    service := body.service.getD log.service,
    message := body.message.getD log.message,
    format := body.format.getD log.format,
    organizationID := body.organizationID.getD log.organizationID,
    meta := body.meta.getD log.meta,
    original_level := body.original_level.getD log.original_level }

/-! ## Query / filter engine (`router.get('/')`)

The store is modelled as a list of documents; `Log.find(query)` is a
filter by the conjunction the route builds (`organizationID` always, then
the optional conditions), `.sort({timestamp: -1})` a sort by descending
timestamp, then the JS tag filter, the offset clamp and the slice.
`$regex` search with option `i` is modelled as case-insensitive substring
on the string rendering of the targeted field. -/

/-- A parsed, validated query (`FilterSpec`): the tenant comes from the
token, the rest from query parameters (validated: `limit` in 1..100,
`offset ≥ 0`). -/
structure FilterSpec where
  tenantId : Nat
  level : Option String
  format : Option String
  tags : List String
  start_date : Option Int
  end_date : Option Int
  search : Option String
  limit : Nat
  offset : Nat

/-- Does the second list start with the first? -/
def startsSeg [BEq α] : List α → List α → Bool
  | [], _ => true
  | _ :: _, [] => false
  | a :: as, b :: bs => a == b && startsSeg as bs

/-- Does the second list contain the first as a contiguous segment? -/
def hasSeg [BEq α] : List α → List α → Bool
  | needle, [] => needle.isEmpty
  | needle, b :: bs => startsSeg needle (b :: bs) || hasSeg needle bs

/-- Is `needle` contained in `hay` as a substring, case-insensitively? -/
def containsCI (hay needle : String) : Bool :=
  hasSeg (jsToLower needle).data (jsToLower hay).data

/-- The optional conditions of the Mongo query object (everything except
the mandatory `organizationID` equality). -/
def restFilter (spec : FilterSpec) (l : StoredLog) : Bool :=
  (match spec.level with
    | none => true
    | some lv => l.level == jsToLower lv)
  && (match spec.format with
    | none => true
    | some f => l.format == f)
  && (match spec.start_date with
    | none => true
    | some d => decide (d ≤ l.timestamp))
  && (match spec.end_date with
    | none => true
    | some d => decide (l.timestamp ≤ d))
  && (match spec.search with
    | none => true
    | some s => containsCI l.message s || containsCI l.format s
        || containsCI (jsString l.meta) s)

/-- The whole `query` object: tenant scoping is unconditional. -/
def matchesQuery (spec : FilterSpec) (l : StoredLog) : Bool :=
  (l.organizationID == spec.tenantId) && restFilter spec l

/-- `Object.keys(meta)` (arrays are `typeof 'object'` too and enumerate
their indices). -/
def metaKeys : JsVal → List String
  | .obj fields => fields.map (fun p => p.1)
  | .arr xs => (List.range xs.length).map toString
  | _ => []

/-- `Object.values(meta)`. -/
def metaValues : JsVal → List JsVal
  | .obj fields => fields.map (fun p => p.2)
  | .arr xs => xs
  | _ => []

/-- The guard `!log.meta || typeof log.meta !== 'object'` (negated):
only truthy objects — plain objects and arrays — pass. -/
def metaFilterable : JsVal → Bool
  | .obj _ => true
  | .arr _ => true
  | _ => false

/-- One tag against one meta: key-name equality or string-rendered value
equality (exact, case-sensitive). -/
def tagMatches (meta : JsVal) (tagValue : String) : Bool :=
  (metaKeys meta).any (fun k => k == tagValue)
    || (metaValues meta).any (fun v => jsString v == tagValue)

/-- The per-log tag predicate: meta must be a truthy object and every tag
must match (AND across tags). -/
def logPassesTags (validTags : List String) (l : StoredLog) : Bool :=
  metaFilterable l.meta && validTags.all (tagMatches l.meta)

/-- The tag-filter stage: tags blank after trimming are dropped; when none
remain the stage is skipped. -/
def applyTagStage (tags : List String) (logs : List StoredLog) : List StoredLog :=
  let validTags := tags.filter (fun t => !(jsTrim t == ""))
  if validTags.isEmpty then logs else logs.filter (logPassesTags validTags)

/-- All entries surviving the find, the descending-timestamp sort and the
tag filter, in response order. -/
def matchingLogs (corpus : List StoredLog) (spec : FilterSpec) : List StoredLog :=
  applyTagStage spec.tags
    ((corpus.filter (matchesQuery spec)).insertionSort
      (fun a b => b.timestamp ≤ a.timestamp))

/-- The `pagination` object of the response. -/
structure Pagination where
  offset : Nat
  limit : Nat
  total_pages : Nat

/-- The query response: page, `X-Total-Count`, pagination echo. -/
structure QueryResult where
  logs : List StoredLog
  totalCount : Nat
  pagination : Pagination

/-- `router.get('/')` after validation: the offset is clamped to
`min(offset, max(total - 1, 0))` (natural subtraction matches the
`Math.max(..., 0)`), the page is `slice(safeOffset, safeOffset + limit)`,
`total_pages = ceil(total / limit)` (for the validated `limit ≥ 1`), and
the echoed `pagination.offset` is the requested one. -/
def queryLogs (corpus : List StoredLog) (spec : FilterSpec) : QueryResult :=
  let logs := matchingLogs corpus spec
  let totalLogs := logs.length
  let safeOffset := min spec.offset (totalLogs - 1)
  { logs := (logs.drop safeOffset).take spec.limit,
    totalCount := totalLogs,
    pagination := { offset := spec.offset, limit := spec.limit,
                    total_pages := (totalLogs + spec.limit - 1) / spec.limit } }

/-! ## Lemmas about the flattener -/

/-- No value of the field list is a plain object. -/
def NoObjF (fields : List (String × JsVal)) : Prop :=
  ∀ p ∈ fields, isObjV p.2 = false

/-- The keys of the field list are pairwise distinct. -/
def NodupKeys (fields : List (String × JsVal)) : Prop :=
  (fields.map Prod.fst).Nodup

theorem any_key_eq_false {fs : List (String × JsVal)} {k : String} :
    fs.any (fun p => p.1 == k) = false ↔ k ∉ fs.map Prod.fst := by
  rw [← Bool.not_eq_true, List.any_eq_true]
  simp

theorem objInsert_noObj {fs : List (String × JsVal)} {k : String} {v : JsVal}
    (hfs : NoObjF fs) (hv : isObjV v = false) : NoObjF (objInsert fs k v) := by
  intro p hp
  unfold objInsert at hp
  split at hp
  · obtain ⟨q, hq, hpq⟩ := List.mem_map.mp hp
    by_cases h : q.1 == k
    · simp only [h, if_pos] at hpq
      rw [← hpq]
      exact hv
    · simp only [h, if_neg, Bool.false_eq_true, not_false_iff] at hpq
      rw [← hpq]
      exact hfs q hq
  · rcases List.mem_append.mp hp with h | h
    · exact hfs p h
    · rw [List.mem_singleton.mp h]
      exact hv

theorem objInsert_nodup {fs : List (String × JsVal)} {k : String} {v : JsVal}
    (hfs : NodupKeys fs) : NodupKeys (objInsert fs k v) := by
  unfold NodupKeys objInsert
  split
  · have : (fs.map (fun p => if p.1 == k then (k, v) else p)).map Prod.fst
        = fs.map Prod.fst := by
      rw [List.map_map]
      refine List.map_congr_left (fun q _ => ?_)
      by_cases h : q.1 == k
      · simp only [Function.comp, h, if_pos]
        exact (eq_of_beq h).symm
      · simp [Function.comp, h]
    rw [this]
    exact hfs
  · rename_i hany
    rw [List.map_append]
    refine ((List.perm_append_singleton _ _).nodup_iff).mpr ?_
    exact List.nodup_cons.mpr
      ⟨any_key_eq_false.mp (Bool.of_not_eq_true hany), hfs⟩

theorem objAssign_inv :
    ∀ (src dst : List (String × JsVal)), NoObjF dst → NodupKeys dst →
      NoObjF src →
      NoObjF (objAssignList dst src) ∧ NodupKeys (objAssignList dst src)
  | [], dst, h1, h2, _ => by
    exact ⟨h1, h2⟩
  | p :: rest, dst, h1, h2, h3 => by
    have hstep : objAssignList dst (p :: rest)
        = objAssignList (objInsert dst p.1 p.2) rest := by
      simp [objAssignList]
    rw [hstep]
    have hv : isObjV p.2 = false := h3 p (List.mem_cons_self p rest)
    exact objAssign_inv rest (objInsert dst p.1 p.2)
      (objInsert_noObj h1 hv) (objInsert_nodup h2)
      (fun q hq => h3 q (List.mem_cons_of_mem p hq))

theorem flattenAux_inv :
    ∀ (acc l : List (String × JsVal)), NoObjF acc → NodupKeys acc →
      NoObjF (flattenAux acc l) ∧ NodupKeys (flattenAux acc l) := by
  intro acc l
  induction acc, l using flattenAux.induct with
  | case1 acc =>
    intro h1 h2
    simpa only [flattenAux] using And.intro h1 h2
  | case2 acc k nested rest ih1 ih2 =>
    intro h1 h2
    rw [flattenAux]
    have hinner := ih1 (fun p hp => absurd hp (List.not_mem_nil p))
      List.nodup_nil
    have hmerge := objAssign_inv (flattenAux [] nested) acc h1 h2 hinner.1
    exact ih2 hmerge.1 hmerge.2
  | case3 acc k v rest hobj ih =>
    intro h1 h2
    have hv : isObjV v = false := by
      cases v with
      | obj fields => exact absurd rfl (hobj fields)
      | null => rfl
      | bool b => rfl
      | num raw => rfl
      | str s => rfl
      | arr xs => rfl
    have hstep : flattenAux acc ((k, v) :: rest)
        = flattenAux (objInsert acc k v) rest := by
      cases v <;> first
        | exact absurd rfl (hobj _)
        | simp only [flattenAux]
    rw [hstep]
    exact ih (objInsert_noObj h1 hv) (objInsert_nodup h2)

theorem flattenObject_inv (fields : List (String × JsVal)) :
    NoObjF (flattenObject fields) ∧ NodupKeys (flattenObject fields) :=
  flattenAux_inv [] fields (fun p hp => absurd hp (List.not_mem_nil p))
    List.nodup_nil

theorem objInsert_fresh {fs : List (String × JsVal)} {k : String} {v : JsVal}
    (h : k ∉ fs.map Prod.fst) : objInsert fs k v = fs ++ [(k, v)] := by
  unfold objInsert
  rw [if_neg]
  rw [Bool.not_eq_true, any_key_eq_false]
  exact h

theorem flattenAux_of_flat :
    ∀ (l acc : List (String × JsVal)), NoObjF l → NodupKeys l →
      (∀ k ∈ l.map Prod.fst, k ∉ acc.map Prod.fst) →
      flattenAux acc l = acc ++ l
  | [], acc, _, _, _ => by simp [flattenAux]
  | (k, v) :: rest, acc, h1, h2, h3 => by
    have hv : isObjV v = false := h1 (k, v) (List.mem_cons_self _ _)
    have hstep : flattenAux acc ((k, v) :: rest)
        = flattenAux (objInsert acc k v) rest := by
      cases v with
      | obj fields => simp [isObjV] at hv
      | null => simp only [flattenAux]
      | bool b => simp only [flattenAux]
      | num raw => simp only [flattenAux]
      | str s => simp only [flattenAux]
      | arr xs => simp only [flattenAux]
    have hkdup : k ∉ rest.map Prod.fst ∧ (rest.map Prod.fst).Nodup :=
      List.nodup_cons.mp (by simpa [NodupKeys] using h2)
    rw [hstep,
      objInsert_fresh (h3 k (by simp))]
    have hrest := flattenAux_of_flat rest (acc ++ [(k, v)])
      (fun p hp => h1 p (List.mem_cons_of_mem _ hp))
      (by simpa [NodupKeys] using hkdup.2)
      (by
        intro k2 hk2
        rw [List.map_append, List.mem_append]
        rintro (h | h)
        · exact h3 k2 (by simp [hk2]) h
        · have hk2ne : k2 ≠ k := by
            intro hkk
            rw [hkk] at hk2
            exact hkdup.1 hk2
          simp at h
          exact hk2ne h)
    rw [hrest, List.append_assoc]
    rfl

/-- A pass over an already-flat, duplicate-free field list is the
identity. -/
theorem flattenObject_of_flat {fields : List (String × JsVal)}
    (h1 : NoObjF fields) (h2 : NodupKeys fields) :
    flattenObject fields = fields := by
  unfold flattenObject
  rw [flattenAux_of_flat fields [] h1 h2 (by simp)]
  rfl

/-! ## Lemmas about the upload loop -/

theorem uploadLineResult_isOk (orgId : Nat) (line : String) :
    ∃ e, uploadLineResult orgId line = Except.ok e :=
  ⟨_, rfl⟩

theorem uploadStep_error_count (orgId : Nat) (fileName : String)
    (st : UploadState) (line : String) :
    (uploadStep orgId fileName st line).errorCount = st.errorCount := by
  obtain ⟨e, he⟩ := uploadLineResult_isOk orgId (jsTrim line)
  unfold uploadStep
  split
  · rfl
  · rw [he]

theorem uploadFold_error_count (orgId : Nat) (fileName : String) :
    ∀ (lines : List String) (st : UploadState),
      (lines.foldl (uploadStep orgId fileName) st).errorCount = st.errorCount
  | [], _ => rfl
  | l :: ls, st => by
    rw [List.foldl_cons,
      uploadFold_error_count orgId fileName ls (uploadStep orgId fileName st l),
      uploadStep_error_count]

/-! ## Concrete inputs used by the claim theorems -/

/-- A line every format dispatch classifies as JSON. -/
def goodLine : String := "1"

/-- A line no format predicate accepts. -/
def badLine : String := "x x"

/-- A valid JSON line with an upper-case level. -/
def upperLevelLine : String := "\x7b\"level\":\"ERROR\"\x7d"

/-- A line matching the syslog pattern and no earlier predicate. -/
def sysLine : String := "Mar 15 12:34:56 myhost sshd[12345]: Failed password for root"

/-- The canonical CLF example from the source comments. -/
def clfSample : String :=
  "127.0.0.1 - frank [10/Oct/2000:13:55:36 -0700] \"GET /apache_pb.gif HTTP/1.0\" 200 2326"

/-- The draft `parseClf` produces for `clfSample`. -/
def clfSampleEntry : Draft :=
  { timestamp := .raw "10/Oct/2000 13:55:36 -0700",
    level := "info",
    service := .str "http",
    message := .str "GET /apache_pb.gif 200",
    meta := .obj [("ip", .str "127.0.0.1"), ("ident", .null),
      ("user", .str "frank"), ("status", .num "200"), ("size", .num "2326"),
      ("method", .str "GET"), ("path", .str "/apache_pb.gif"),
      ("protocol", .str "HTTP/1.0")],
    format := "clf" }

/-- The entry the upload loop builds for `goodLine`. -/
def goodEntry : UploadEntry :=
  { timestamp := .now, level := "info", service := .str "unknown",
    message := .str "", format := "json_lines", organizationID := 1,
    meta := [], original_level := "info" }

/-! ## Claim theorems -/

/-- C6: the metadata flattener is idempotent; its output contains no
nested key/value structures; an already-flat input with unique keys
(arrays and scalars only) passes through unchanged; a nested structure is
merged into the parent level with the parent key name discarded; and when
two paths flatten to the same leaf key the later-visited value wins. -/
theorem flattener_algebra :
    (∀ fields : List (String × JsVal),
        flattenObject (flattenObject fields) = flattenObject fields)
    ∧ (∀ (fields : List (String × JsVal)) (p : String × JsVal),
        p ∈ flattenObject fields → isObjV p.2 = false)
    ∧ (∀ fields : List (String × JsVal), NoObjF fields → NodupKeys fields →
        flattenObject fields = fields)
    ∧ flattenObject [("parent", JsVal.obj [("a", JsVal.str "1")]), ("b", JsVal.str "2")]
        = [("a", JsVal.str "1"), ("b", JsVal.str "2")]
    ∧ flattenObject [("x", JsVal.obj [("k", JsVal.str "1")]),
        ("y", JsVal.obj [("k", JsVal.str "2")])] = [("k", JsVal.str "2")] := by
  refine ⟨?_, ?_, ?_, ?_, ?_⟩
  · intro fields
    exact flattenObject_of_flat (flattenObject_inv fields).1
      (flattenObject_inv fields).2
  · intro fields p hp
    exact (flattenObject_inv fields).1 p hp
  · intro fields h1 h2
    exact flattenObject_of_flat h1 h2
  · simp [flattenObject, flattenAux, objAssignList, objInsert]
  · simp [flattenObject, flattenAux, objAssignList, objInsert]

/-- Witness for C6 at a concrete flat input. -/
theorem flattener_algebra_witness :
    NoObjF [("a", JsVal.str "1")] ∧ NodupKeys [("a", JsVal.str "1")]
    ∧ flattenObject [("a", JsVal.str "1")] = [("a", JsVal.str "1")] :=
  ⟨by unfold NoObjF; decide, by unfold NodupKeys; decide,
    flattener_algebra.2.2.1 [("a", JsVal.str "1")]
      (by unfold NoObjF; decide) (by unfold NodupKeys; decide)⟩

/-- C10: `detectLogFormatAndParse` is total and absorbs every
classification miss or parser failure itself, returning a fallback entry
with level `error`, service `parser` (not `log-parser`), format
`json_lines`, message `"Failed to parse log line: <reason>"` and meta
holding only `original_line`; consequently the upload route's per-line
catch branch never fires for a parse failure and `error_count` is 0 on
every batch. -/
theorem detect_total_fallback :
    (∀ (line m : String), classifyParse line = Except.error m →
      detectLogFormatAndParse line =
        { timestamp := Timestamp.now, level := "error",
          service := JsVal.str "parser",
          message := JsVal.str ("Failed to parse log line: " ++ m),
          meta := JsVal.obj [("original_line", JsVal.str line)],
          format := "json_lines" })
    ∧ (∀ (lines : List String) (fileName : String) (orgId : Nat),
        (uploadPipeline lines fileName orgId).2.error_count = 0) := by
  constructor
  · intro line m h
    unfold detectLogFormatAndParse resolveParse
    rw [h]
    rfl
  · intro lines fileName orgId
    exact uploadFold_error_count orgId fileName lines ⟨[], 0, 0⟩

/-- Witness for C10 at the unclassifiable line. -/
theorem detect_total_fallback_witness :
    classifyParse badLine = Except.error "Unknown log format"
    ∧ detectLogFormatAndParse badLine =
        { timestamp := Timestamp.now, level := "error",
          service := JsVal.str "parser",
          message := JsVal.str ("Failed to parse log line: " ++ "Unknown log format"),
          meta := JsVal.obj [("original_line", JsVal.str badLine)],
          format := "json_lines" } :=
  ⟨rfl, detect_total_fallback.1 badLine "Unknown log format" rfl⟩

set_option maxRecDepth 100000 in
/-- C1 at the failing input (code diverges from the claim): a malformed
line inside an otherwise valid 100-line upload leaves `error_count` at 0
— not 1 — because `detectLogFormatAndParse` swallowed the failure; the
entry stored for the bad line is the parser fallback (service `parser`,
message `"Failed to parse log line: ..."`, meta holding only
`original_line`), not the route's `log-parser` synthetic entry with
`line_number` and `file_name`. -/
theorem upload_malformed_line_stats :
    (uploadPipeline (List.replicate 99 goodLine ++ [badLine]) "app.log" 1).2
      = { total_lines := 100, parsed_logs := 100, error_count := 0 }
    ∧ ((uploadPipeline [goodLine, badLine] "app.log" 1).1.map
        (fun e => e.service)) = [JsVal.str "unknown", JsVal.str "parser"]
    ∧ ((uploadPipeline [goodLine, badLine] "app.log" 1).1.map
        (fun e => e.message))
      = [JsVal.str "", JsVal.str "Failed to parse log line: Unknown log format"]
    ∧ ((uploadPipeline [goodLine, badLine] "app.log" 1).1.map
        (fun e => e.meta)) = [[], [("original_line", JsVal.str badLine)]] := by
  refine ⟨rfl, rfl, rfl, ?_⟩
  have h : (uploadPipeline [goodLine, badLine] "app.log" 1).1.map (fun e => e.meta)
      = [[], flattenObject [("original_line", JsVal.str badLine)]] := rfl
  rw [h, flattenObject_of_flat (by unfold NoObjF; decide)
    (by unfold NodupKeys; decide)]

/-- C5: the classifier evaluates `isJsonLines`, `isSyslog`,
`isNginxError`, `isClf` in that strict priority order and dispatches to
the parser of the first predicate that holds (whose failure goes through
the same catch); when none holds the line takes the parse-error path.
Classification is a total Lean function, hence deterministic. -/
theorem classifier_priority_order :
    ∀ line : String,
      (isJsonLines line = true →
        detectLogFormatAndParse line = resolveParse (parseJsonLines line) line)
      ∧ (isJsonLines line = false → isSyslog line = true →
        detectLogFormatAndParse line = resolveParse (parseSyslog line) line)
      ∧ (isJsonLines line = false → isSyslog line = false →
          isNginxError line = true →
        detectLogFormatAndParse line = resolveParse (parseNginxError line) line)
      ∧ (isJsonLines line = false → isSyslog line = false →
          isNginxError line = false → isClf line = true →
        detectLogFormatAndParse line = resolveParse (parseClf line) line)
      ∧ (isJsonLines line = false → isSyslog line = false →
          isNginxError line = false → isClf line = false →
        detectLogFormatAndParse line = fallbackEntry "Unknown log format" line) := by
  intro line
  refine ⟨?_, ?_, ?_, ?_, ?_⟩
  · intro h1
    simp [detectLogFormatAndParse, classifyParse, h1]
  · intro h1 h2
    simp [detectLogFormatAndParse, classifyParse, h1, h2]
  · intro h1 h2 h3
    simp [detectLogFormatAndParse, classifyParse, h1, h2, h3]
  · intro h1 h2 h3 h4
    simp [detectLogFormatAndParse, classifyParse, h1, h2, h3, h4]
  · intro h1 h2 h3 h4
    simp [detectLogFormatAndParse, classifyParse, resolveParse, h1, h2, h3, h4]

/-- Witness for C5 at a syslog line. -/
theorem classifier_priority_order_witness :
    isJsonLines sysLine = false ∧ isSyslog sysLine = true
    ∧ detectLogFormatAndParse sysLine = resolveParse (parseSyslog sysLine) sysLine :=
  ⟨rfl, rfl, (classifier_priority_order sysLine).2.1 rfl rfl⟩

/-- C7: every successfully CLF-parsed entry has service `http`, and its
level is a function of the numeric status alone: `error` for ≥ 500,
`warn` for 400–499, `info` below 400; the message is
`"<method> <path> <status>"`. -/
theorem clf_level_from_status :
    ∀ (line : String) (e : Draft), parseClf line = Except.ok e →
      e.service = JsVal.str "http"
      ∧ e.format = "clf"
      ∧ ∃ (st : Nat) (method path : String),
          metaLookup e.meta "status" = some (JsVal.num (toString st))
          ∧ metaLookup e.meta "method" = some (JsVal.str method)
          ∧ metaLookup e.meta "path" = some (JsVal.str path)
          ∧ e.message = JsVal.str (method ++ " " ++ path ++ " " ++ toString st)
          ∧ e.level = (if 500 ≤ st then "error"
              else if 400 ≤ st then "warn" else "info") := by
  intro line e h
  unfold parseClf at h
  cases hm : clfMatch line with
  | none =>
    rw [hm] at h
    exact absurd h (by simp)
  | some groups =>
    obtain ⟨ip, ident, user, timestampStr, request, status, size⟩ := groups
    rw [hm] at h
    rw [Except.ok.injEq] at h
    subst h
    exact ⟨rfl, rfl, parseDigits status, (splitChar ' ' request).getD 0 "",
      (splitChar ' ' request).getD 1 "", rfl, rfl, rfl, rfl, rfl⟩

/-- Witness for C7 at the canonical CLF example. -/
theorem clf_level_from_status_witness :
    parseClf clfSample = Except.ok clfSampleEntry
    ∧ clfSampleEntry.service = JsVal.str "http"
    ∧ clfSampleEntry.level = "info" :=
  ⟨rfl, (clf_level_from_status clfSample clfSampleEntry rfl).1, rfl⟩

/-- C8 counterexample: an uploaded JSON line whose raw level is "ERROR"
is stored with `original_level = "error"` — the normalized level, not the
raw pre-normalization string the claim requires. -/
theorem original_level_counterexample :
    jsonParse upperLevelLine = some (JsVal.obj [("level", JsVal.str "ERROR")])
    ∧ ((uploadPipeline [upperLevelLine] "f.log" 1).1.map
        (fun e => e.original_level)) = ["error"]
    ∧ ("error" : String) ≠ "ERROR" :=
  ⟨rfl, rfl, by decide⟩

/-- C8 amended: `original_level` is always set; for manual ingest it is
the raw submitted level (and `level` its lower-casing), while for
upload-ingested entries it equals the parser's already-normalized level
(so it coincides with `level` and loses the raw casing). -/
theorem original_level_amended :
    (∀ (body : IngestBody) (orgId : Nat),
      (ingestLog body orgId).original_level = body.level
      ∧ (ingestLog body orgId).level = jsToLower body.level)
    ∧ (∀ (orgId : Nat) (line : String) (e : UploadEntry),
        uploadLineResult orgId line = Except.ok e →
        e.original_level = e.level) := by
  constructor
  · intro body orgId
    exact ⟨rfl, rfl⟩
  · intro orgId line e h
    unfold uploadLineResult at h
    rw [Except.ok.injEq] at h
    rw [← h]

/-- Witness for C8's amended statement at `goodLine`. -/
theorem original_level_amended_witness :
    uploadLineResult 1 goodLine = Except.ok goodEntry
    ∧ goodEntry.original_level = goodEntry.level :=
  ⟨rfl, original_level_amended.2 1 goodLine goodEntry rfl⟩

/-- A stored log used by the update and tag-filter theorems. -/
def sampleLog : StoredLog :=
  { timestamp := 100, level := "info", service := "api", message := "m",
    format := "json_lines", organizationID := 1, meta := JsVal.null,
    original_level := "info" }

/-- A PATCH body carrying the two fields the claim says are immutable. -/
def hijackPatch : PatchBody :=
  { timestamp := some 999, level := none, service := none, message := none,
    format := none, original_level := none, meta := none,
    organizationID := some 2 }

/-- A PATCH body touching neither timestamp nor organization. -/
def benignPatch : PatchBody :=
  { timestamp := none, level := some "warn", service := none,
    message := none, format := none, original_level := none, meta := none,
    organizationID := none }

/-- C9 counterexample: a PATCH body supplying `organizationID` and
`timestamp` changes both — the update is not restricted to the claimed
field set. -/
theorem patch_fields_counterexample :
    (applyPatch sampleLog hijackPatch).organizationID = 2
    ∧ (applyPatch sampleLog hijackPatch).timestamp = 999
    ∧ sampleLog.organizationID = 1
    ∧ sampleLog.timestamp = 100 :=
  ⟨rfl, rfl, rfl, rfl⟩

/-- C9 amended: the PATCH update copies every schema field present in the
body — including `timestamp` and `organizationID` — and leaves exactly
the absent fields unchanged. -/
theorem patch_fields_amended :
    ∀ (log : StoredLog) (body : PatchBody),
      (applyPatch log body).organizationID
          = body.organizationID.getD log.organizationID
      ∧ (applyPatch log body).timestamp = body.timestamp.getD log.timestamp
      ∧ (applyPatch log body).level = body.level.getD log.level
      ∧ (body.organizationID = none → body.timestamp = none →
          (applyPatch log body).organizationID = log.organizationID
          ∧ (applyPatch log body).timestamp = log.timestamp) := by
  intro log body
  refine ⟨rfl, rfl, rfl, ?_⟩
  intro h1 h2
  constructor
  · show body.organizationID.getD log.organizationID = log.organizationID
    rw [h1]
    rfl
  · show body.timestamp.getD log.timestamp = log.timestamp
    rw [h2]
    rfl

/-- Witness for C9's amended statement at a benign body. -/
theorem patch_fields_amended_witness :
    benignPatch.organizationID = none ∧ benignPatch.timestamp = none
    ∧ (applyPatch sampleLog benignPatch).organizationID
        = sampleLog.organizationID
    ∧ (applyPatch sampleLog benignPatch).timestamp = sampleLog.timestamp :=
  ⟨rfl, rfl, ((patch_fields_amended sampleLog benignPatch).2.2.2 rfl rfl).1,
    ((patch_fields_amended sampleLog benignPatch).2.2.2 rfl rfl).2⟩

/-! ## Lemmas about the query engine -/

theorem filter_and_split (p q : α → Bool) (l : List α) :
    l.filter (fun a => p a && q a) = (l.filter p).filter q := by
  induction l with
  | nil => rfl
  | cons a t ih =>
    by_cases hp : p a <;> by_cases hq : q a <;>
      simp [List.filter_cons, hp, hq, ih]

theorem mem_matchingLogs {corpus : List StoredLog} {spec : FilterSpec}
    {l : StoredLog} (h : l ∈ matchingLogs corpus spec) :
    matchesQuery spec l = true := by
  simp only [matchingLogs, applyTagStage] at h
  have hsorted : l ∈ (corpus.filter (matchesQuery spec)).insertionSort
      (fun a b => b.timestamp ≤ a.timestamp) := by
    split at h
    · exact h
    · exact List.mem_of_mem_filter h
  exact (List.mem_filter.mp ((List.mem_insertionSort _).mp hsorted)).2

theorem drop_length_sub_one : ∀ (l : List α),
    l.drop (l.length - 1) = l.getLast?.toList
  | [] => rfl
  | [_] => rfl
  | a :: b :: t => by
    rw [List.getLast?_cons_cons, ← drop_length_sub_one (b :: t)]
    simp [List.length_cons]

/-- Concrete corpus and specification for the pagination claims. -/
def pageLog (t : Int) : StoredLog :=
  { timestamp := t, level := "info", service := "s", message := "m",
    format := "json_lines", organizationID := 1, meta := JsVal.null,
    original_level := "info" }

/-- Three matching entries for tenant 1. -/
def pageCorpus : List StoredLog := [pageLog 3, pageLog 2, pageLog 1]

/-- A query with `offset = 10, limit = 10` for tenant 1. -/
def pageSpec : FilterSpec :=
  { tenantId := 1, level := none, format := none, tags := [],
    start_date := none, end_date := none, search := none,
    limit := 10, offset := 10 }

/-- C2 counterexample: with 3 total matches, `offset = 10` and
`limit = 10`, the code returns a single entry (the oldest) instead of all
3, and `pagination.offset` echoes the requested 10 rather than an
effective offset of 0; `total_pages = 1` as claimed. -/
theorem offset_clamp_counterexample :
    (queryLogs pageCorpus pageSpec).totalCount = 3
    ∧ (queryLogs pageCorpus pageSpec).logs.length = 1
    ∧ (queryLogs pageCorpus pageSpec).logs = [pageLog 1]
    ∧ (queryLogs pageCorpus pageSpec).pagination.offset = 10
    ∧ (queryLogs pageCorpus pageSpec).pagination.total_pages = 1 :=
  ⟨rfl, rfl, rfl, rfl, rfl⟩

/-- C2 amended: when the requested offset is at least the number of
matches and at least one entry matches, the effective offset is clamped
to `totalMatching - 1` (not reset to 0), so the page holds exactly the
last — oldest — matching entry; `pagination.offset` echoes the requested
offset, and `total_pages = ceil(total / limit)`. -/
theorem offset_clamp_amended :
    ∀ (corpus : List StoredLog) (spec : FilterSpec),
      (matchingLogs corpus spec).length ≤ spec.offset →
      0 < (matchingLogs corpus spec).length →
      1 ≤ spec.limit →
      (queryLogs corpus spec).logs.length = 1
      ∧ (queryLogs corpus spec).logs.head? = (matchingLogs corpus spec).getLast?
      ∧ (queryLogs corpus spec).pagination.offset = spec.offset
      ∧ (queryLogs corpus spec).pagination.total_pages
          = ((matchingLogs corpus spec).length + spec.limit - 1) / spec.limit := by
  intro corpus spec hoff hpos hlim
  have hsafe : min spec.offset ((matchingLogs corpus spec).length - 1)
      = (matchingLogs corpus spec).length - 1 :=
    Nat.min_eq_right (le_trans (Nat.sub_le _ 1) hoff)
  obtain ⟨x, hx⟩ : ∃ x, (matchingLogs corpus spec).getLast? = some x := by
    cases hM : matchingLogs corpus spec with
    | nil =>
      rw [hM] at hpos
      exact absurd hpos (by simp)
    | cons a t =>
      exact Option.isSome_iff_exists.mp (List.getLast?_isSome.mpr (by simp))
  obtain ⟨n, hn⟩ : ∃ n, spec.limit = n + 1 :=
    ⟨spec.limit - 1, (Nat.succ_pred_eq_of_pos hlim).symm⟩
  have hpage : (queryLogs corpus spec).logs = [x] := by
    show ((matchingLogs corpus spec).drop
        (min spec.offset ((matchingLogs corpus spec).length - 1))).take spec.limit
      = [x]
    rw [hsafe, drop_length_sub_one, hx, hn]
    simp
  refine ⟨by rw [hpage]; rfl, by rw [hpage, hx]; rfl, rfl, rfl⟩

/-- Witness for C2's amended statement at the concrete 3-match corpus. -/
theorem offset_clamp_amended_witness :
    (matchingLogs pageCorpus pageSpec).length ≤ pageSpec.offset
    ∧ 0 < (matchingLogs pageCorpus pageSpec).length
    ∧ 1 ≤ pageSpec.limit
    ∧ (queryLogs pageCorpus pageSpec).logs.length = 1 :=
  ⟨by decide, by decide, by decide,
    (offset_clamp_amended pageCorpus pageSpec (by decide) (by decide)
      (by decide)).1⟩

/-- C3: every entry in a query result belongs to the tenant of the
specification, and the result depends only on the tenant's slice of the
corpus: two corpora agreeing on the tenant's entries — and arbitrary on
other tenants — give identical results. -/
theorem tenant_isolation :
    (∀ (corpus : List StoredLog) (spec : FilterSpec) (l : StoredLog),
      l ∈ (queryLogs corpus spec).logs → l.organizationID = spec.tenantId)
    ∧ (∀ (c1 c2 : List StoredLog) (spec : FilterSpec),
        c1.filter (fun l => l.organizationID == spec.tenantId)
          = c2.filter (fun l => l.organizationID == spec.tenantId) →
        queryLogs c1 spec = queryLogs c2 spec) := by
  constructor
  · intro corpus spec l hl
    have hmem : l ∈ matchingLogs corpus spec := by
      have h1 : l ∈ ((matchingLogs corpus spec).drop
          (min spec.offset ((matchingLogs corpus spec).length - 1))).take
            spec.limit := hl
      exact List.mem_of_mem_drop (List.mem_of_mem_take h1)
    have hq := mem_matchingLogs hmem
    unfold matchesQuery at hq
    rw [Bool.and_eq_true] at hq
    exact eq_of_beq hq.1
  · intro c1 c2 spec h
    have e1 : ∀ c : List StoredLog, c.filter (matchesQuery spec)
        = (c.filter (fun l => l.organizationID == spec.tenantId)).filter
            (restFilter spec) := fun c => filter_and_split _ _ c
    have hb : c1.filter (matchesQuery spec) = c2.filter (matchesQuery spec) := by
      rw [e1 c1, e1 c2, h]
    unfold queryLogs matchingLogs
    rw [hb]

/-- A stored entry of tenant 1. -/
def logT1 : StoredLog :=
  { timestamp := 5, level := "info", service := "a", message := "x",
    format := "json_lines", organizationID := 1, meta := JsVal.null,
    original_level := "info" }

/-- A stored entry of tenant 2. -/
def logT2 : StoredLog :=
  { timestamp := 6, level := "error", service := "b", message := "y",
    format := "syslog", organizationID := 2, meta := JsVal.null,
    original_level := "error" }

/-- A query for tenant 1 with no optional filters. -/
def specT1 : FilterSpec :=
  { tenantId := 1, level := none, format := none, tags := [],
    start_date := none, end_date := none, search := none,
    limit := 10, offset := 0 }

/-- Witness for C3 at two corpora differing only in tenant 2's data. -/
theorem tenant_isolation_witness :
    [logT1, logT2].filter (fun l => l.organizationID == specT1.tenantId)
      = [logT1].filter (fun l => l.organizationID == specT1.tenantId)
    ∧ queryLogs [logT1, logT2] specT1 = queryLogs [logT1] specT1 :=
  ⟨rfl, tenant_isolation.2 [logT1, logT2] [logT1] specT1 rfl⟩

/-- A stored entry with meta `env: prod`. -/
def envLog : StoredLog :=
  { timestamp := 1, level := "info", service := "s", message := "m",
    format := "json_lines", organizationID := 1,
    meta := JsVal.obj [("env", JsVal.str "prod")], original_level := "info" }

/-- C4: with a non-empty tag list, an entry passes the tag filter exactly
when every tag equals some meta key name or the string rendering of some
meta value (OR between the two per tag, AND across tags); entries whose
meta is absent (null) or the empty object fail every non-empty tag
filter; and meta `env: prod` matches tag sets `env` and `prod` but not
`env, staging`. -/
theorem tag_filter_semantics :
    (∀ (l : StoredLog) (tags : List String), tags ≠ [] →
      (logPassesTags tags l = true ↔
        ∀ t ∈ tags, (∃ k ∈ metaKeys l.meta, k = t)
          ∨ (∃ v ∈ metaValues l.meta, jsString v = t)))
    ∧ (∀ (l : StoredLog) (tags : List String), tags ≠ [] →
        l.meta = JsVal.null ∨ l.meta = JsVal.obj [] →
        logPassesTags tags l = false)
    ∧ (logPassesTags ["env"] envLog = true
      ∧ logPassesTags ["prod"] envLog = true
      ∧ logPassesTags ["env", "staging"] envLog = false) := by
  refine ⟨?_, ?_, ?conc1, ?conc2, ?conc3⟩
  case conc1 => simp [logPassesTags, envLog, metaFilterable, tagMatches,
    metaKeys, metaValues, jsString]
  case conc2 => simp [logPassesTags, envLog, metaFilterable, tagMatches,
    metaKeys, metaValues, jsString]
  case conc3 => simp [logPassesTags, envLog, metaFilterable, tagMatches,
    metaKeys, metaValues, jsString]
  · intro l tags hne
    unfold logPassesTags
    cases hm : l.meta with
    | obj fields =>
      simp [metaFilterable, tagMatches, metaKeys, metaValues,
        List.all_eq_true, List.any_eq_true]
    | arr xs =>
      simp [metaFilterable, tagMatches, metaKeys, metaValues,
        List.all_eq_true, List.any_eq_true]
    | null =>
      simp only [metaFilterable, Bool.false_and, metaKeys, metaValues]
      constructor
      · intro h
        exact absurd h (by simp)
      · intro hall
        obtain ⟨t0, ht0⟩ := List.exists_mem_of_ne_nil tags hne
        exact absurd (hall t0 ht0) (by simp)
    | bool b =>
      simp only [metaFilterable, Bool.false_and, metaKeys, metaValues]
      constructor
      · intro h
        exact absurd h (by simp)
      · intro hall
        obtain ⟨t0, ht0⟩ := List.exists_mem_of_ne_nil tags hne
        exact absurd (hall t0 ht0) (by simp)
    | num raw =>
      simp only [metaFilterable, Bool.false_and, metaKeys, metaValues]
      constructor
      · intro h
        exact absurd h (by simp)
      · intro hall
        obtain ⟨t0, ht0⟩ := List.exists_mem_of_ne_nil tags hne
        exact absurd (hall t0 ht0) (by simp)
    | str st =>
      simp only [metaFilterable, Bool.false_and, metaKeys, metaValues]
      constructor
      · intro h
        exact absurd h (by simp)
      · intro hall
        obtain ⟨t0, ht0⟩ := List.exists_mem_of_ne_nil tags hne
        exact absurd (hall t0 ht0) (by simp)
  · intro l tags hne hmeta
    obtain ⟨t0, ht0⟩ := List.exists_mem_of_ne_nil tags hne
    rcases hmeta with hm | hm
    · unfold logPassesTags
      rw [hm]
      rfl
    · unfold logPassesTags
      rw [hm, Bool.eq_false_iff]
      intro hcontra
      rw [Bool.and_eq_true, List.all_eq_true] at hcontra
      have h0 := hcontra.2 t0 ht0
      simp [tagMatches, metaKeys, metaValues] at h0

/-- Witness for C4 at an entry without meta. -/
theorem tag_filter_semantics_witness :
    (["missing"] : List String) ≠ []
    ∧ sampleLog.meta = JsVal.null
    ∧ logPassesTags ["missing"] sampleLog = false :=
  ⟨by decide, rfl,
    tag_filter_semantics.2.1 sampleLog ["missing"] (by decide) (Or.inl rfl)⟩

end LogsApp
